import Mathlib

/-!
# Food Identification & Nutrition Resolution Pipeline — verification development

A shallow embedding of the pipeline code of this repository
(vision-response parsing, nutrition resolution, batch orchestration,
pipeline coordination, trace logging) together with theorems settling
the specification claims.

External collaborators (the OpenAI chat endpoint, the USDA and
OpenFoodFacts HTTP endpoints, Clerk authentication) are modelled as
oracle parameters; everything else is translated from the TypeScript
source.  JavaScript runtime values that flow through `any`-typed code
are modelled by the inductive type `JSVal` below, and a JavaScript
exception is an `Except.error`.
-/

set_option autoImplicit false

namespace FoodPipeline

/-! ## JavaScript value model

JSON-decodable JavaScript values, plus `undefined` (the result of
reading an absent property).  Numbers are modelled as rationals: every
numeric literal appearing in the pipeline is exactly representable, and
`NaN` cannot be produced by `JSON.parse`. -/

inductive JSVal : Type where
  | null : JSVal
  | undefined : JSVal
  | bool : Bool → JSVal
  | num : ℚ → JSVal
  | str : String → JSVal
  | arr : List JSVal → JSVal
  | obj : List (String × JSVal) → JSVal
deriving Repr

/-- JavaScript truthiness: `null`, `undefined`, `false`, `0` and `""`
are falsy, every other JSON-representable value (including `[]` and
`{}`) is truthy. -/
def truthy : JSVal → Bool
  | .null => false
  | .undefined => false
  | .bool b => b
  | .num q => decide (q ≠ 0)
  | .str s => decide (s ≠ "")
  | .arr _ => true
  | .obj _ => true

/-- `a || b` on JavaScript values. -/
def jsOr (a b : JSVal) : JSVal := if truthy a then a else b

/-- Property read `v[k]`.  Reading a property of `null` or `undefined`
throws a `TypeError`; reading an absent property of any other value
yields `undefined`.  (Only data properties are read through this
helper; built-in methods such as `toString` are modelled at their call
sites.) -/
def jsGetE (v : JSVal) (k : String) : Except Unit JSVal :=
  match v with
  | .null => .error ()
  | .undefined => .error ()
  | .obj fs =>
      match fs.find? (fun p => p.1 = k) with
      | some p => .ok p.2
      | none => .ok .undefined
  | _ => .ok .undefined

/-! ## Model of the ECMAScript `JSON.parse` builtin

A fuelled recursive-descent JSON parser.  It is used computationally:
the claims below evaluate it on concrete model responses.  (Duplicate
object keys and leading-zero rejection are not modelled; no pipeline
input exercises them.) -/

def isWsChar (c : Char) : Bool :=
  c = ' ' || c = '\t' || c = '\n' || c = '\r'

def skipWs : List Char → List Char
  | [] => []
  | c :: cs => if isWsChar c then skipWs cs else c :: cs

/-- Model of `String.prototype.trim` (and of `.trim()` in TypeScript):
strip leading and trailing whitespace. -/
def trimStr (s : String) : String :=
  String.mk ((skipWs (skipWs s.data).reverse).reverse)

/-- Model of `String.prototype.toLowerCase`. -/
def lowerStr (s : String) : String :=
  String.mk (s.data.map Char.toLower)

def digitVal (c : Char) : Option ℕ :=
  if c.isDigit then some (c.toNat - Char.toNat '0') else none

def takeDigits : List Char → (List ℕ × List Char)
  | [] => ([], [])
  | c :: cs =>
    match digitVal c with
    | some d =>
        let p := takeDigits cs
        (d :: p.1, p.2)
    | none => ([], c :: cs)

def digitsToNat (ds : List ℕ) : ℕ := ds.foldl (fun a d => a * 10 + d) 0

/-- Fractional part after the decimal point: at least one digit. -/
def parseFrac (cs : List Char) : Option (ℚ × List Char) :=
  match takeDigits cs with
  | ([], _) => none
  | (ds, r) => some ((digitsToNat ds : ℚ) / ((10 : ℚ) ^ ds.length), r)

/-- Exponent after `e`/`E`: optional sign, then at least one digit. -/
def parseExp (cs : List Char) : Option (ℤ × List Char) :=
  let p : ℤ × List Char :=
    match cs with
    | '+' :: r => (1, r)
    | '-' :: r => (-1, r)
    | _ => (1, cs)
  match takeDigits p.2 with
  | ([], _) => none
  | (ds, r) => some (p.1 * (digitsToNat ds : ℤ), r)

def parseNumber (cs : List Char) : Option (ℚ × List Char) :=
  let p : Bool × List Char :=
    match cs with
    | '-' :: r => (true, r)
    | _ => (false, cs)
  match takeDigits p.2 with
  | ([], _) => none
  | (ds, cs2) =>
    let base : ℚ := (digitsToNat ds : ℚ)
    let step2 : Option (ℚ × List Char) :=
      match cs2 with
      | '.' :: r => (parseFrac r).map (fun q => (base + q.1, q.2))
      | _ => some (base, cs2)
    match step2 with
    | none => none
    | some (v2, cs3) =>
      let step3 : Option (ℚ × List Char) :=
        match cs3 with
        | 'e' :: r => (parseExp r).map (fun q => (v2 * (10 : ℚ) ^ q.1, q.2))
        | 'E' :: r => (parseExp r).map (fun q => (v2 * (10 : ℚ) ^ q.1, q.2))
        | _ => some (v2, cs3)
      match step3 with
      | none => none
      | some (v3, cs4) => some (if p.1 then -v3 else v3, cs4)

def hexVal (c : Char) : Option ℕ :=
  if c.isDigit then some (c.toNat - Char.toNat '0')
  else if 'a' ≤ c && c ≤ 'f' then some (c.toNat - Char.toNat 'a' + 10)
  else if 'A' ≤ c && c ≤ 'F' then some (c.toNat - Char.toNat 'A' + 10)
  else none

/-- Body of a JSON string, after the opening quote (fuelled). -/
def parseStringBody : ℕ → List Char → Option (List Char × List Char)
  | 0, _ => none
  | _, [] => none
  | f + 1, c :: r =>
    if c = '"' then some ([], r)
    else if c = '\\' then
      match r with
      | [] => none
      | e :: r2 =>
        let esc : Option (Char × List Char) :=
          if e = '"' then some ('"', r2)
          else if e = '\\' then some ('\\', r2)
          else if e = '/' then some ('/', r2)
          else if e = 'n' then some ('\n', r2)
          else if e = 't' then some ('\t', r2)
          else if e = 'r' then some ('\r', r2)
          else if e = 'b' then some (Char.ofNat 8, r2)
          else if e = 'f' then some (Char.ofNat 12, r2)
          else if e = 'u' then
            match r2 with
            | h1 :: h2 :: h3 :: h4 :: r3 =>
              match hexVal h1, hexVal h2, hexVal h3, hexVal h4 with
              | some a, some b, some c2, some d =>
                  some (Char.ofNat (((a * 16 + b) * 16 + c2) * 16 + d), r3)
              | _, _, _, _ => none
            | _ => none
          else none
        match esc with
        | none => none
        | some (ch, rest) =>
          match parseStringBody f rest with
          | none => none
          | some (s, r3) => some (ch :: s, r3)
    else
      match parseStringBody f r with
      | none => none
      | some (s, r3) => some (c :: s, r3)

mutual

def parseVal : ℕ → List Char → Option (JSVal × List Char)
  | 0, _ => none
  | f + 1, cs =>
    match skipWs cs with
    | 'n' :: 'u' :: 'l' :: 'l' :: r => some (.null, r)
    | 't' :: 'r' :: 'u' :: 'e' :: r => some (.bool true, r)
    | 'f' :: 'a' :: 'l' :: 's' :: 'e' :: r => some (.bool false, r)
    | '"' :: r =>
      (parseStringBody (r.length + 1) r).map
        (fun q => (.str (String.mk q.1), q.2))
    | '[' :: r =>
      (match skipWs r with
       | ']' :: r2 => some (.arr [], r2)
       | _ => (parseItems f r).map (fun q => (.arr q.1, q.2)))
    | '{' :: r =>
      (match skipWs r with
       | '}' :: r2 => some (.obj [], r2)
       | _ => (parseFields f r).map (fun q => (.obj q.1, q.2)))
    | cs2 => (parseNumber cs2).map (fun q => (.num q.1, q.2))

def parseItems : ℕ → List Char → Option (List JSVal × List Char)
  | 0, _ => none
  | f + 1, cs =>
    match parseVal f cs with
    | none => none
    | some (v, r) =>
      match skipWs r with
      | ',' :: r2 =>
        (match parseItems f r2 with
         | none => none
         | some (vs, r3) => some (v :: vs, r3))
      | ']' :: r2 => some ([v], r2)
      | _ => none

def parseFields : ℕ → List Char → Option (List (String × JSVal) × List Char)
  | 0, _ => none
  | f + 1, cs =>
    match skipWs cs with
    | '"' :: r =>
      (match parseStringBody (r.length + 1) r with
       | none => none
       | some (k, r2) =>
         match skipWs r2 with
         | ':' :: r3 =>
           (match parseVal f r3 with
            | none => none
            | some (v, r4) =>
              match skipWs r4 with
              | ',' :: r5 =>
                (match parseFields f r5 with
                 | none => none
                 | some (fs, r6) => some ((String.mk k, v) :: fs, r6))
              | '}' :: r5 => some ([(String.mk k, v)], r5)
              | _ => none)
         | _ => none)
    | _ => none

end

/-- Model of `JSON.parse`: `some v` is a successful parse, `none` a
thrown `SyntaxError`. -/
def jsonParse (s : String) : Option JSVal :=
  match parseVal (s.length + 1) s.data with
  | some (v, r) => if skipWs r = [] then some v else none
  | none => none

/-! ## JavaScript record (plain object used as a string-keyed map)

`results[name] = v` overwrites in place when the key exists and appends
a new property otherwise; property enumeration order is insertion order
of first assignment. -/

def hasKey {α : Type} (m : List (String × α)) (k : String) : Bool :=
  m.any (fun p => p.1 = k)

def jsRecordSet {α : Type} (m : List (String × α)) (k : String) (v : α) :
    List (String × α) :=
  if hasKey m k then m.map (fun p => if p.1 = k then (k, v) else p)
  else m ++ [(k, v)]

def lookupKey {α : Type} (m : List (String × α)) (k : String) : Option α :=
  (m.find? (fun p => p.1 = k)).map (fun p => p.2)

def keysOf {α : Type} (m : List (String × α)) : List String :=
  m.map (fun p => p.1)

/-- Number of entries of a record carrying the key `k`. -/
def countKey {α : Type} (m : List (String × α)) (k : String) : ℕ :=
  (m.filter (fun p => p.1 = k)).length

/-- First-occurrence deduplication, matching the enumeration order of a
JavaScript object populated by repeated assignment. -/
def dedupFirst : List String → List String
  | [] => []
  | n :: rest => n :: dedupFirst (rest.filter (fun x => x ≠ n))
termination_by l => l.length
decreasing_by
  simp only [List.length_cons]
  exact Nat.lt_succ_of_le (List.length_filter_le _ _)

/-! ## Static data model (`types/nutrition-types.ts`) -/

/-- `NutritionInfo` from `types/nutrition-types.ts`. -/
structure NutritionInfo : Type where
  calories : ℚ
  protein : ℚ
  carbs : ℚ
  fat : ℚ
  servingSize : Option String := none
  servingSizeUnit : Option String := none
  servingWeight : Option ℚ := none
deriving Repr, DecidableEq

/-- `FoodItemDetail` from `types/nutrition-types.ts`; `source` holds
one of the string literals `"USDA"`, `"OpenFoodFacts"`, `"default"`. -/
structure FoodItemDetail : Type where
  name : String
  description : Option String := none
  brandOwner : Option String := none
  ingredients : Option String := none
  nutrition : NutritionInfo
  source : String
  sourceId : Option String := none
  confidence : Option ℚ := none
deriving Repr, DecidableEq

/-- `ActionState<T>` from `types`: a server action either succeeds with
a message and data or fails with a message; it never throws. -/
inductive ActionState (α : Type) : Type where
  | success : String → α → ActionState α
  | failure : String → ActionState α
deriving Repr, DecidableEq

/-! ## Nutrition API (`lib/api/nutrition-api.ts`)

The HTTP fetch, JSON decode and provider-payload transform of each
provider are modelled as an oracle `String → Except Unit (List
FoodItemDetail)`: `.error` stands for any exception thrown while
querying or transforming (network failure, non-OK status, missing API
key, timeout), `.ok items` for the transformed result list. -/

def ProviderOracle : Type := String → Except Unit (List FoodItemDetail)

/-- `DEFAULT_NUTRITION` from `lib/api/nutrition-api.ts`. -/
def DEFAULT_NUTRITION : NutritionInfo :=
  { calories := 0, protein := 0, carbs := 0, fat := 0 }

/-- `getFallbackNutrition` from `lib/api/nutrition-api.ts`. -/
def getFallbackNutrition (foodName : String) : FoodItemDetail :=
  { name := foodName
    description := some ("Estimated nutrition for " ++ foodName)
    nutrition := DEFAULT_NUTRITION
    source := "default"
    confidence := some 0 }

/-- `searchUSDAFoods`, reduced to its item list: an empty or
whitespace-only query throws `INVALID_QUERY`, and every exception is
caught and turned into the empty result set. -/
def searchUSDAFoods (usdaApi : ProviderOracle) (query : String) :
    List FoodItemDetail :=
  if trimStr query = "" then []
  else
    match usdaApi query with
    | .error _ => []
    | .ok items => items

/-- `searchOpenFoodFacts`, reduced to its item list, same catch
behaviour as `searchUSDAFoods`. -/
def searchOpenFoodFacts (offApi : ProviderOracle) (searchTerms : String) :
    List FoodItemDetail :=
  if trimStr searchTerms = "" then []
  else
    match offApi searchTerms with
    | .error _ => []
    | .ok items => items

/-- `searchFoodNutrition` from `lib/api/nutrition-api.ts`: query USDA,
then OpenFoodFacts, and keep an OpenFoodFacts item only when no USDA
item has the same lower-cased name.  The function is total (both
sub-searches catch internally), so its own catch branch is dead. -/
def searchFoodNutrition (usdaApi offApi : ProviderOracle) (query : String) :
    List FoodItemDetail :=
  let usdaItems := searchUSDAFoods usdaApi query
  let offItems := searchOpenFoodFacts offApi query
  usdaItems ++
    offItems.filter (fun o =>
      ! usdaItems.any (fun u => lowerStr u.name = lowerStr o.name))

/-! ## Nutrition server actions, `actions/nutrition` variant
(src/unnamed/part_010) -/

namespace NutritionActions

/-- `getNutritionInfoAction` (part_010): rejects an unauthenticated
session and a blank name; otherwise searches both providers and falls
back to `getFallbackNutrition` when nothing is found.  The catch branch
of the source also returns the fallback on a thrown error, so the
action never fails once past its two guards. -/
def getNutritionInfoAction (usdaApi offApi : ProviderOracle)
    (authed : Bool) (foodName : String) : ActionState (List FoodItemDetail) :=
  if !authed then .failure "Unauthorized"
  else if trimStr foodName = "" then .failure "Food name is required"
  else
    let results := searchFoodNutrition usdaApi offApi foodName
    if results.isEmpty then
      .success "Using estimated nutrition (no exact match found)"
        [getFallbackNutrition foodName]
    else
      .success ("Found " ++ toString results.length ++ " nutrition results")
        results

/-- One closure of the `foodNames.map` fan-out inside
`batchNutritionLookupAction` (part_010): call `getNutritionInfoAction`
for the name, use the first datum on success, the fallback otherwise
(also on a caught error). -/
def resolveBatchEntry (usdaApi offApi : ProviderOracle) (authed : Bool)
    (name : String) : FoodItemDetail :=
  match getNutritionInfoAction usdaApi offApi authed name with
  | .success _ (d :: _) => d
  | _ => getFallbackNutrition name

/-- The fan-out/fan-in of `batchNutritionLookupAction` (part_010): one
`getNutritionInfoAction` invocation per element of `foodNames` (counted
in the second component), each writing `results[name]`.  The closures
run concurrently under `Promise.all`, but every write for a given key
carries the same value, so the final record is the same as this
sequential left fold. -/
def batchNutritionRun (usdaApi offApi : ProviderOracle) (authed : Bool)
    (foodNames : List String) : List (String × FoodItemDetail) × ℕ :=
  foodNames.foldl
    (fun acc n =>
      (jsRecordSet acc.1 n (resolveBatchEntry usdaApi offApi authed n),
       acc.2 + 1))
    ([], 0)

/-- `batchNutritionLookupAction` (part_010, lines 163-216). -/
def batchNutritionLookupAction (usdaApi offApi : ProviderOracle)
    (authed : Bool) (foodNames : List String) :
    ActionState (List (String × FoodItemDetail)) :=
  if !authed then .failure "Unauthorized"
  else if foodNames.isEmpty then .failure "Food names array is required"
  else
    .success
      ("Processed nutrition for " ++ toString foodNames.length ++ " food items")
      (batchNutritionRun usdaApi offApi authed foodNames).1

end NutritionActions

/-! ## Nutrition server actions, second variant (src/unnamed/part_013,
lines 285-329) -/

namespace NutritionActionsB

/-- `batchNutritionLookupAction` (part_013): calls `searchFoodNutrition`
per name and stores the first item **only when the result list is
non-empty**; a name whose lookup fails or returns nothing gets no entry
at all ("continue with other lookups even if one fails"). -/
def batchNutritionLookupAction (usdaApi offApi : ProviderOracle)
    (foodNames : List String) :
    ActionState (List (String × FoodItemDetail)) :=
  if foodNames.isEmpty then .failure "No food names provided"
  else
    .success "Batch nutrition lookup completed"
      (foodNames.foldl
        (fun m n =>
          match searchFoodNutrition usdaApi offApi n with
          | [] => m
          | i :: _ => jsRecordSet m n i)
        [])

end NutritionActionsB

/-! ## String-search models of the extraction regexes -/

/-- Split around the first occurrence of `pat`: `some (before, after)`
with the occurrence removed. -/
def splitAtSub (pat : List Char) : List Char → Option (List Char × List Char)
  | [] => if pat.isEmpty then some ([], []) else none
  | c :: cs =>
    if pat.isPrefixOf (c :: cs) then some ([], (c :: cs).drop pat.length)
    else (splitAtSub pat cs).map (fun q => (c :: q.1, q.2))

/-- Characters between the first occurrence of `pat1` and the first
occurrence of `pat2` after it. -/
def betweenSubs (pat1 pat2 s : List Char) : Option (List Char) :=
  match splitAtSub pat1 s with
  | none => none
  | some (_, afterOpen) =>
    match splitAtSub pat2 afterOpen with
    | none => none
    | some (inner, _) => some inner

/-- The capture of `/(three backticks)json\s*([^]*?)\s*(three
backticks)/`: text between the first fence opener and the next fence,
with surrounding whitespace absorbed by the `\s*` anchors (i.e.
trimmed).  An empty capture makes `match[1] || match[0]` fall back to
the whole match in the source; both routes then fail `JSON.parse`, so
the model keeps the capture. -/
def fencedJsonMatch (s : String) : Option String :=
  (betweenSubs "```json".data "```".data s.data).map
    (fun cs => trimStr (String.mk cs))

/-- The capture of the bare-fence regex (same shape, without `json`). -/
def fencedAnyMatch (s : String) : Option String :=
  (betweenSubs "```".data "```".data s.data).map
    (fun cs => trimStr (String.mk cs))

/-- The whole match of the lazy regex `/\x7b[^]*?\x7d/`: first `{`
through the first following `}`, inclusive. -/
def lazyBraceMatch (s : String) : Option String :=
  match splitAtSub [ '{' ] s.data with
  | none => none
  | some (_, afterOpen) =>
    match splitAtSub [ '}' ] afterOpen with
    | none => none
    | some (inner, _) => some (String.mk ('{' :: inner ++ [ '}' ]))

/-- The whole match of the greedy regex `/\x7b[^]*\x7d/` used by the
part_015 variant: first `{` through the **last** `}`, inclusive. -/
def greedyBraceMatch (s : String) : Option String :=
  match splitAtSub [ '{' ] s.data with
  | none => none
  | some (_, afterOpen) =>
    match splitAtSub [ '}' ] afterOpen.reverse with
    | none => none
    | some (_, revPre) => some (String.mk ('{' :: revPre.reverse ++ [ '}' ]))

/-- `jsonString.replace(/^(fence)json\s*/, "").replace(/\s*(fence)$/,
"").trim()` from `openai-vision.ts`. -/
def cleanupJsonString (s : String) : String :=
  let cs := s.data
  let cs1 :=
    if ("```json".data).isPrefixOf cs then skipWs (cs.drop 7) else cs
  let rev := cs1.reverse
  let cs2 :=
    if ("```".data).isPrefixOf rev then (skipWs (rev.drop 3)).reverse else cs1
  trimStr (String.mk cs2)

/-! ## Vision response parser (`lib/api/openai-vision.ts`) -/

namespace OpenAIVision

/-- `FoodItem` from `lib/api/openai-vision.ts` — after
`ensureFoodItem`, both fields are genuinely typed. -/
structure FoodItem : Type where
  name : String
  confidence : ℚ
deriving Repr, DecidableEq

/-- `ImageProcessingResult`: the food list is normalized, but
`extractedText` is passed through unvalidated, so it stays a raw
JavaScript value. -/
structure ImageProcessingResult : Type where
  foodItems : List FoodItem
  extractedText : JSVal
deriving Repr

/-- `ensureFoodItem` (lines 241-255): coerce `name` to a string (no
trimming) and clamp a numeric `confidence` into `[0,1]`, defaulting to
0.  Reading a property of a `null` array element throws. -/
def ensureFoodItem (item : JSVal) : Except Unit FoodItem := do
  let n ← jsGetE item "name"
  let c ← jsGetE item "confidence"
  .ok
    { name := match n with | .str s => s | _ => ""
      confidence := match c with | .num q => min (max q 0) 1 | _ => 0 }

/-- `if (!p.k) p.k = []` followed by re-reading `p.k`.  Reading throws
on a nullish `p`; in strict mode (ES modules) the assignment throws on
any other primitive; on an object or array it succeeds. -/
def ensureArrayField (p : JSVal) (k : String) : Except Unit JSVal := do
  let v ← jsGetE p k
  if truthy v then .ok v
  else
    match p with
    | .obj _ => .ok (.arr [])
    | .arr _ => .ok (.arr [])
    | _ => .error ()

/-- `xs.map(ensureFoodItem)`: the synchronous `Array.prototype.map`,
which propagates the first exception its callback throws. -/
def mapEnsure : List JSVal → Except Unit (List FoodItem)
  | [] => .ok []
  | x :: xs => do
    let y ← ensureFoodItem x
    let ys ← mapEnsure xs
    .ok (y :: ys)

/-- Lines 237-255: ensure both fields, then map `ensureFoodItem` over
`foodItems` (throws unless it is an array) and drop items whose name is
empty after trimming. -/
def normalizeParsedResponse (p : JSVal) : Except Unit ImageProcessingResult := do
  let fi ← ensureArrayField p "foodItems"
  let et ← ensureArrayField p "extractedText"
  match fi with
  | .arr xs => do
    let items ← mapEnsure xs
    .ok
      { foodItems := items.filter (fun it => trimStr it.name ≠ "")
        extractedText := et }
  | _ => .error ()

/-- Layered parse of lines 172-235: direct `JSON.parse` first; on
failure extract a fenced block (```json, then bare fences) or the first
lazy brace span, clean it up and re-parse; `none` means both layers
failed. -/
def parsedVisionJson (content : String) : Option JSVal :=
  match jsonParse content with
  | some v => some v
  | none =>
    let jsonMatch : Option String :=
      match fencedJsonMatch content with
      | some s => some s
      | none =>
        match fencedAnyMatch content with
        | some s => some s
        | none => lazyBraceMatch content
    match jsonMatch with
    | some s => jsonParse (cleanupJsonString s)
    | none => none

/-- The default used when every parse layer fails:
`{foodItems: [], extractedText: []}`. -/
def defaultParsedResponse : JSVal :=
  .obj [("foodItems", .arr []), ("extractedText", .arr [])]

/-- The whole response-processing section of `processImageWithOpenAI`
(lines 172-255): layered parse with the empty default, then
normalization; `.error` is a `TypeError` escaping the section into the
function's outer catch. -/
def processVisionContent (content : String) : Except Unit ImageProcessingResult :=
  normalizeParsedResponse ((parsedVisionJson content).getD defaultParsedResponse)

/-- Outcome of the one `openai.chat.completions.create` call: `.error`
is a thrown API error (network, auth, quota), `.ok c` a completed call
whose first choice has message content `c`. -/
def VisionOracle : Type := Except Unit (Option String)

/-- `processImageWithOpenAI` from `lib/api/openai-vision.ts`.  Dynamic
error text (from thrown `Error` objects the model does not carry) is
abbreviated to a fixed bracketed placeholder after the template's
static part. -/
def processImageWithOpenAI (visionCall : VisionOracle) :
    ActionState ImageProcessingResult :=
  match visionCall with
  | .error _ => .failure "Failed to process image: [api error]"
  | .ok contentOpt =>
    match contentOpt with
    | none => .failure "Failed to process image: No response content from OpenAI"
    | some content =>
      if content = "" then
        .failure "Failed to process image: No response content from OpenAI"
      else
        match processVisionContent content with
        | .ok r => .success "Image processed successfully" r
        | .error _ => .failure "Failed to process image: [normalization error]"

end OpenAIVision

/-! ## Vision response parser, earlier variant (src/unnamed/part_015) -/

namespace OpenAIVisionB

/-- The observable fields of the raw `parsedResponse` object the
part_015 variant returns (no per-item normalization there). -/
structure RawVisionResult : Type where
  foodItems : JSVal
  extractedText : JSVal
deriving Repr

/-- `processImageWithOpenAI` from part_015 (lines 43-138): extraction
**first** (```json fence, else greedy brace span), direct parse only
when no span is found, and a parse failure is thrown ("Failed to parse
response from OpenAI") and surfaced by the outer catch as a failed
action — there is no empty-result fallback. -/
def processImageWithOpenAI (visionCall : OpenAIVision.VisionOracle) :
    ActionState RawVisionResult :=
  match visionCall with
  | .error _ => .failure "Failed to process image: [api error]"
  | .ok contentOpt =>
    match contentOpt with
    | none => .failure "Failed to process image: No response from OpenAI"
    | some content =>
      if content = "" then
        .failure "Failed to process image: No response from OpenAI"
      else
        let jsonMatch : Option String :=
          match fencedJsonMatch content with
          | some s => some s
          | none => greedyBraceMatch content
        let parsed : Option JSVal :=
          match jsonMatch with
          | some s => jsonParse s
          | none => jsonParse content
        match parsed with
        | none =>
          .failure "Failed to process image: Failed to parse response from OpenAI"
        | some p =>
          match
            (do
              let fi ← OpenAIVision.ensureArrayField p "foodItems"
              let et ← OpenAIVision.ensureArrayField p "extractedText"
              .ok (fi, et) : Except Unit (JSVal × JSVal))
          with
          | .ok q => .success "Image processed successfully"
              { foodItems := q.1, extractedText := q.2 }
          | .error _ => .failure "Failed to process image: [normalization error]"

end OpenAIVisionB

/-! ## Pipeline entry point (`actions/ai/food-detection-actions.ts`,
second module, lines 298-345) -/

namespace FoodDetection

/-- The members of `ERROR_MESSAGES` the entry point uses. -/
def INVALID_URL : String := "The provided URL is invalid or inaccessible"

def NO_FOOD_DETECTED : String := "No food items were detected in this image"

def API_ERROR : String := "There was an error processing the image with AI"

/-- `FoodDetectionResult` as assembled by the action. -/
structure FoodDetectionResult : Type where
  foodItems : List OpenAIVision.FoodItem
  extractedText : JSVal
deriving Repr

/-- `detectFoodInImageAction`: validate the input, run
`processImageWithOpenAI`, surface its failure message (or `API_ERROR`
when that message is empty), surface `NO_FOOD_DETECTED` on an empty
candidate list, and otherwise succeed. -/
def detectFoodInImageAction (visionCall : OpenAIVision.VisionOracle)
    (imageData : String) : ActionState FoodDetectionResult :=
  if imageData = "" then .failure INVALID_URL
  else
    match OpenAIVision.processImageWithOpenAI visionCall with
    | .failure msg => .failure (if msg = "" then API_ERROR else msg)
    | .success _ data =>
      if data.foodItems.isEmpty then .failure NO_FOOD_DETECTED
      else
        .success "Food items detected successfully"
          { foodItems := data.foodItems
            extractedText := jsOr data.extractedText (.arr []) }

end FoodDetection

/-! ## Final assembly
(`app/(dashboard)/meal-log/_components/meal-log-form.tsx`) -/

namespace MealLogForm

/-- `FoodItem` from `components/ui/food-card.tsx`, the row type the
meal-log form assembles. -/
structure FoodItem : Type where
  name : String
  calories : ℚ
  protein : ℚ
  carbs : ℚ
  fat : ℚ
  imageUrl : Option String := none
  detectedViaAI : Option Bool := none
  confidence : Option ℚ := none
  source : Option String := none
  sourceId : Option String := none
  description : Option String := none
  quantity : Option ℚ := none
deriving Repr, DecidableEq

/-- `x || undefined` on a possibly-absent number: `undefined` and `0`
are falsy. -/
def truthyOptNum (q : Option ℚ) : Option ℚ :=
  match q with
  | some x => if x = 0 then none else some x
  | none => none

/-- `s || undefined` on a possibly-absent string: `undefined` and `""`
are falsy. -/
def orUndefined (s : Option String) : Option String :=
  match s with
  | some x => if x = "" then none else some x
  | none => none

/-- `fetchNutritionForFoodItem` (lines 174-219).  The oracle is the
`getNutritionInfoAction` server call.  Notes kept from the source:
`nutritionData.nutrition.calories || 0` is the identity on an
already-defaulted number, and the assembled confidence is
`item.confidence || nutritionData.confidence || 0` (JavaScript `||`,
so a present-but-zero AI confidence is overridden). -/
def fetchNutritionForFoodItem
    (getNutrition : String → ActionState (List FoodItemDetail))
    (item : FoodItem) : FoodItem :=
  if item.calories > 0 || item.protein > 0 || item.carbs > 0 || item.fat > 0
  then item
  else
    match getNutrition item.name with
    | .success _ (nd :: _) =>
      { item with
        calories := nd.nutrition.calories
        protein := nd.nutrition.protein
        carbs := nd.nutrition.carbs
        fat := nd.nutrition.fat
        source := some nd.source
        sourceId := orUndefined nd.sourceId
        description := orUndefined nd.description
        confidence :=
          some ((truthyOptNum item.confidence).getD
            ((truthyOptNum nd.confidence).getD 0)) }
    | _ => item

/-- `processFoodItemsWithNutrition` (lines 222-279): batch-look-up all
names, then map over the original items in order, upgrading an item
when the returned record has its name and keeping it unchanged
otherwise; when the batch action fails, fall back to per-item lookups
under `Promise.all` (which preserves input order).  The outer catch
returns `items` and is dead in the model because both oracles return
`ActionState`s instead of throwing. -/
def processFoodItemsWithNutrition
    (batchLookup : List String → ActionState (List (String × FoodItemDetail)))
    (getNutrition : String → ActionState (List FoodItemDetail))
    (items : List FoodItem) : List FoodItem :=
  match batchLookup (items.map (fun i => i.name)) with
  | .success _ m =>
    items.map (fun item =>
      match lookupKey m item.name with
      | some nd =>
        { item with
          calories := nd.nutrition.calories
          protein := nd.nutrition.protein
          carbs := nd.nutrition.carbs
          fat := nd.nutrition.fat
          source := some nd.source
          sourceId := orUndefined nd.sourceId
          description := orUndefined nd.description }
      | none => item)
  | .failure _ => items.map (fetchNutritionForFoodItem getNutrition)

end MealLogForm

/-! ## Trace-correlated logging (`lib/server-logger.ts`; the
`getLogsByTraceId` of `lib/logger.ts` is the same filter over the
client-side store) -/

namespace ServerLogger

/-- `FoodIdentificationStep` from `lib/logger.ts`. -/
inductive FoodIdentificationStep : Type where
  | imageUpload
  | openaiVisionRequest
  | openaiVisionResponse
  | imageProcessing
  | nutritionApiRequest
  | nutritionApiResponse
  | finalFoodItem
deriving Repr, DecidableEq

/-- `LogEntry` from `lib/server-logger.ts`. -/
structure LogEntry : Type where
  timestamp : String
  traceId : String
  step : FoodIdentificationStep
  message : String
  level : Option String := none
  data : Option JSVal := none
deriving Repr

/-- `getLogsByTraceId` (lines 123-130): a plain filter over the
append-ordered store; no sorting is applied. -/
def getLogsByTraceId (serverLogs : List LogEntry) (traceId : String) :
    List LogEntry :=
  serverLogs.filter (fun log => log.traceId = traceId)

/-- Timestamp-ascending order (ISO-8601 timestamps compare
lexicographically). -/
def chronological (l : List LogEntry) : Prop :=
  l.Pairwise (fun a b => compare a.timestamp b.timestamp ≠ Ordering.gt)

instance chronologicalDecidable (l : List LogEntry) :
    Decidable (chronological l) := by
  unfold chronological
  infer_instance

end ServerLogger

/-! ## Provider adapter transforms (`lib/api/nutrition-api.ts`, lines
1100-1218)

The transforms take `any`-typed provider payloads, so their inputs and
the values they build are raw JavaScript values.  A thrown `TypeError`
inside the `try` body is caught; the `catch` block itself dereferences
the payload and can therefore re-throw. -/

namespace NutritionTransforms

/-- The runtime shape of the `nutrition` object the transforms build
(`any`-typed: a malformed payload can leave non-numbers in numeric
fields). -/
structure DynNutritionInfo : Type where
  calories : JSVal
  protein : JSVal
  carbs : JSVal
  fat : JSVal
  servingSize : JSVal := .undefined
  servingSizeUnit : JSVal := .undefined
  servingWeight : JSVal := .undefined
deriving Repr

/-- `DEFAULT_NUTRITION` as a runtime value (optional fields absent). -/
def DYN_DEFAULT_NUTRITION : DynNutritionInfo :=
  { calories := .num 0, protein := .num 0, carbs := .num 0, fat := .num 0 }

/-- The runtime shape of the `FoodItemDetail` object the transforms
build; `source` and `confidence` always come from literals. -/
structure DynFoodItemDetail : Type where
  name : JSVal
  description : JSVal := .undefined
  brandOwner : JSVal := .undefined
  ingredients : JSVal := .undefined
  nutrition : DynNutritionInfo
  source : String
  sourceId : JSVal := .undefined
  confidence : ℚ
deriving Repr

/-- Abstraction of JavaScript `toString()` on a non-nullish value.  The
pipeline never branches on these strings; array/object renderings are
abbreviated. -/
def jsToString : JSVal → String
  | .null => "null"
  | .undefined => "undefined"
  | .bool b => if b then "true" else "false"
  | .num q => if q.den = 1 then toString q.num else toString q
  | .str s => s
  | .arr _ => "[array]"
  | .obj _ => "[object Object]"

/-- `v?.toString()`: `undefined` on a nullish `v`, else the rendered
string. -/
def optToString (v : JSVal) : JSVal :=
  match v with
  | .null => .undefined
  | .undefined => .undefined
  | _ => .str (jsToString v)

/-- `calories === 0` (strict equality against the number 0). -/
def isNumZero (v : JSVal) : Bool :=
  match v with
  | .num q => decide (q = 0)
  | _ => false

/-- One iteration of the `for (const nutrient of food.foodNutrients)`
loop: skip entries with a falsy `nutrientNumber`, otherwise switch on
the exact strings `"208"`, `"2048"`, `"203"`, `"205"`, `"204"`.
Reading a property of a `null` element throws. -/
def usdaNutrientStep (st : JSVal × JSVal × JSVal × JSVal) (nutrient : JSVal) :
    Except Unit (JSVal × JSVal × JSVal × JSVal) := do
  let nn ← jsGetE nutrient "nutrientNumber"
  if !(truthy nn) then .ok st
  else
    match nn with
    | .str s =>
      if s = "208" then do
        let v ← jsGetE nutrient "value"
        .ok (jsOr v (.num 0), st.2.1, st.2.2.1, st.2.2.2)
      else if s = "2048" then
        if isNumZero st.1 then do
          let v ← jsGetE nutrient "value"
          .ok (jsOr v (.num 0), st.2.1, st.2.2.1, st.2.2.2)
        else .ok st
      else if s = "203" then do
        let v ← jsGetE nutrient "value"
        .ok (st.1, jsOr v (.num 0), st.2.2.1, st.2.2.2)
      else if s = "205" then do
        let v ← jsGetE nutrient "value"
        .ok (st.1, st.2.1, jsOr v (.num 0), st.2.2.2)
      else if s = "204" then do
        let v ← jsGetE nutrient "value"
        .ok (st.1, st.2.1, st.2.2.1, jsOr v (.num 0))
      else .ok st
    | _ => .ok st

/-- The `try` body of `transformUSDAFood` (lines 1101-1154). -/
def transformUSDAFoodTry (food : JSVal) : Except Unit DynFoodItemDetail := do
  let fns ← jsGetE food "foodNutrients"
  let init : JSVal × JSVal × JSVal × JSVal := (.num 0, .num 0, .num 0, .num 0)
  let st ←
    if truthy fns then
      match fns with
      | .arr xs => xs.foldlM usdaNutrientStep init
      | .str _ => .ok init
      | _ => .error ()
    else .ok init
  let desc ← jsGetE food "description"
  let ldesc ← jsGetE food "lowercaseDescription"
  let adesc ← jsGetE food "additionalDescriptions"
  let brand ← jsGetE food "brandOwner"
  let ingr ← jsGetE food "ingredients"
  let ss ← jsGetE food "servingSize"
  let ssu ← jsGetE food "servingSizeUnit"
  let sw ← jsGetE food "servingWeight"
  let fid ← jsGetE food "fdcId"
  .ok
    { name := jsOr desc (jsOr ldesc (.str "Unknown Food"))
      description := jsOr adesc (.str "")
      brandOwner := jsOr brand (.str "")
      ingredients := jsOr ingr (.str "")
      nutrition :=
        { calories := st.1
          protein := st.2.1
          carbs := st.2.2.1
          fat := st.2.2.2
          servingSize := jsOr (optToString ss) (.str "100")
          servingSizeUnit := jsOr ssu (.str "g")
          servingWeight := jsOr sw (.num 100) }
      source := "USDA"
      sourceId := optToString fid
      confidence := 9 / 10 }

/-- The `catch` block of `transformUSDAFood` (lines 1155-1164): note
that it reads `food.description` and `food.fdcId` and therefore
re-throws on a nullish payload. -/
def transformUSDAFoodCatch (food : JSVal) : Except Unit DynFoodItemDetail := do
  let desc ← jsGetE food "description"
  let fid ← jsGetE food "fdcId"
  .ok
    { name := jsOr desc (.str "Unknown Food")
      nutrition := DYN_DEFAULT_NUTRITION
      source := "USDA"
      sourceId := optToString fid
      confidence := 1 / 2 }

/-- `transformUSDAFood` (lines 1100-1165). -/
def transformUSDAFood (food : JSVal) : Except Unit DynFoodItemDetail :=
  match transformUSDAFoodTry food with
  | .ok r => .ok r
  | .error _ => transformUSDAFoodCatch food

def isDigitSpace (c : Char) : Bool := c.isDigit || isWsChar c

def isDigitDot (c : Char) : Bool := c.isDigit || c = '.'

/-- `.replace(/[\d\s]+/, "")`: remove the first maximal run of
digit/whitespace characters. -/
def removeFirstRun (p : Char → Bool) : List Char → List Char
  | [] => []
  | c :: cs => if p c then cs.dropWhile p else c :: removeFirstRun p cs

/-- `.match(/[\d.]+/)`: the first maximal run of digit/dot characters,
if any. -/
def firstRun (p : Char → Bool) : List Char → Option (List Char)
  | [] => none
  | c :: cs => if p c then some (c :: cs.takeWhile p) else firstRun p cs

/-- Model of `parseFloat` on a string: optional sign, then a decimal
literal prefix; `none` is `NaN`. -/
def parseFloatQ (s : String) : Option ℚ :=
  let cs := skipWs s.data
  let p : Bool × List Char :=
    match cs with
    | '-' :: r => (true, r)
    | '+' :: r => (false, r)
    | _ => (false, cs)
  let ip := takeDigits p.2
  let intDigits := ip.1
  let fracDigits : List ℕ :=
    match ip.2 with
    | '.' :: r => (takeDigits r).1
    | _ => []
  if intDigits.isEmpty && fracDigits.isEmpty then none
  else
    let v : ℚ :=
      (digitsToNat intDigits : ℚ) +
        (digitsToNat fracDigits : ℚ) / ((10 : ℚ) ^ fracDigits.length)
    some (if p.1 then -v else v)

/-- `parseFloat(product.serving_size?.match(/[\d.]+/) || "100") || 100`
for a `serving_size` that is nullish or a string (any other shape has
already thrown at `.replace`). -/
def offServingWeight (servingSize : JSVal) : JSVal :=
  let arg : String :=
    match servingSize with
    | .str s =>
      match firstRun isDigitDot s.data with
      | some run => String.mk run
      | none => "100"
    | _ => "100"
  match parseFloatQ arg with
  | some q => if q = 0 then .num 100 else .num q
  | none => .num 100

/-- The `try` body of `transformOpenFoodFactsProduct` (lines
1174-1207).  `serving_size?.replace(...)` throws a `TypeError` when
`serving_size` is neither nullish nor a string. -/
def transformOpenFoodFactsProductTry (product : JSVal) :
    Except Unit DynFoodItemDetail := do
  let nutr0 ← jsGetE product "nutriments"
  let nutrients := jsOr nutr0 (.obj [])
  let sq ← jsGetE product "serving_quantity"
  let ss ← jsGetE product "serving_size"
  let servingSize := jsOr (optToString sq) (.str "100")
  let ssu ←
    match ss with
    | .null => .ok JSVal.undefined
    | .undefined => .ok JSVal.undefined
    | .str s =>
      .ok (JSVal.str (trimStr (String.mk (removeFirstRun isDigitSpace s.data))))
    | _ => .error ()
  let servingSizeUnit := jsOr ssu (.str "g")
  let servingWeight := offServingWeight ss
  let e100 ← jsGetE nutrients "energy_100g"
  let per100g : Bool := match e100 with | .undefined => false | _ => true
  let energy ← jsGetE nutrients "energy"
  let p100 ← jsGetE nutrients "proteins_100g"
  let prot ← jsGetE nutrients "proteins"
  let c100 ← jsGetE nutrients "carbohydrates_100g"
  let carb ← jsGetE nutrients "carbohydrates"
  let f100 ← jsGetE nutrients "fat_100g"
  let fatv ← jsGetE nutrients "fat"
  let pname ← jsGetE product "product_name"
  let gname ← jsGetE product "generic_name"
  let brands ← jsGetE product "brands"
  let itext ← jsGetE product "ingredients_text"
  let code ← jsGetE product "code"
  let pid ← jsGetE product "_id"
  .ok
    { name := jsOr pname (jsOr gname (.str "Unknown Product"))
      description := jsOr gname (.str "")
      brandOwner := jsOr brands (.str "")
      ingredients := jsOr itext (.str "")
      nutrition :=
        { calories := jsOr (if per100g then e100 else energy) (.num 0)
          protein := jsOr (if per100g then p100 else prot) (.num 0)
          carbs := jsOr (if per100g then c100 else carb) (.num 0)
          fat := jsOr (if per100g then f100 else fatv) (.num 0)
          servingSize := servingSize
          servingSizeUnit := servingSizeUnit
          servingWeight := servingWeight }
      source := "OpenFoodFacts"
      sourceId := jsOr code pid
      confidence := 4 / 5 }

/-- The `catch` block of `transformOpenFoodFactsProduct` (lines
1208-1216); it reads the payload and re-throws on a nullish one. -/
def transformOpenFoodFactsProductCatch (product : JSVal) :
    Except Unit DynFoodItemDetail := do
  let pname ← jsGetE product "product_name"
  let code ← jsGetE product "code"
  let pid ← jsGetE product "_id"
  .ok
    { name := jsOr pname (.str "Unknown Product")
      nutrition := DYN_DEFAULT_NUTRITION
      source := "OpenFoodFacts"
      sourceId := jsOr code pid
      confidence := 1 / 2 }

/-- `transformOpenFoodFactsProduct` (lines 1173-1218). -/
def transformOpenFoodFactsProduct (product : JSVal) :
    Except Unit DynFoodItemDetail :=
  match transformOpenFoodFactsProductTry product with
  | .ok r => .ok r
  | .error _ => transformOpenFoodFactsProductCatch product

end NutritionTransforms

/-! ## Lemmas: JavaScript records built by repeated assignment -/

section RecordLemmas

variable {α : Type}

/-- A fold writing `results[n] = f n` for each listed name, starting
from record `m` — the shape shared by both batch orchestrator
variants' happy paths. -/
def foldSet (f : String → α) (m : List (String × α)) (names : List String) :
    List (String × α) :=
  names.foldl (fun acc n => jsRecordSet acc n (f n)) m

theorem hasKey_map_key (f : String → α) (ks : List String) (k : String) :
    hasKey (ks.map (fun x => (x, f x))) k = decide (k ∈ ks) := by
  induction ks with
  | nil => simp [hasKey]
  | cons a l ih =>
    simp only [hasKey, List.map_cons, List.any_cons] at ih ⊢
    rw [ih]
    by_cases h : a = k
    · subst h
      simp
    · have h2 : ¬ k = a := fun hh => h hh.symm
      simp [h, h2]

theorem jsRecordSet_map_mem (f : String → α) (ks : List String) (k : String)
    (hk : k ∈ ks) :
    jsRecordSet (ks.map (fun x => (x, f x))) k (f k) =
      ks.map (fun x => (x, f x)) := by
  unfold jsRecordSet
  rw [hasKey_map_key]
  simp only [hk, decide_True, if_true]
  rw [List.map_map]
  apply List.map_congr_left
  intro a _
  by_cases h : a = k
  · subst h
    simp
  · simp [Function.comp, h]

theorem jsRecordSet_map_not_mem (f : String → α) (ks : List String)
    (k : String) (hk : k ∉ ks) :
    jsRecordSet (ks.map (fun x => (x, f x))) k (f k) =
      (ks ++ [k]).map (fun x => (x, f x)) := by
  unfold jsRecordSet
  rw [hasKey_map_key]
  simp [hk]

theorem foldSet_map_eq (f : String → α) :
    ∀ (names ks : List String), ks.Nodup →
      foldSet f (ks.map (fun x => (x, f x))) names =
        (ks ++ dedupFirst (names.filter (fun n => decide (n ∉ ks)))).map
          (fun x => (x, f x)) := by
  intro names
  induction names with
  | nil =>
    intro ks _
    simp [foldSet, dedupFirst]
  | cons n rest ih =>
    intro ks hks
    by_cases hn : n ∈ ks
    · have hstep :
          foldSet f (ks.map (fun x => (x, f x))) (n :: rest) =
            foldSet f (ks.map (fun x => (x, f x))) rest := by
        simp only [foldSet, List.foldl_cons]
        rw [jsRecordSet_map_mem f ks n hn]
      rw [hstep, ih ks hks]
      have hfilter :
          (n :: rest).filter (fun x => decide (x ∉ ks)) =
            rest.filter (fun x => decide (x ∉ ks)) := by
        simp [List.filter_cons, hn]
      rw [hfilter]
    · have hstep :
          foldSet f (ks.map (fun x => (x, f x))) (n :: rest) =
            foldSet f ((ks ++ [n]).map (fun x => (x, f x))) rest := by
        simp only [foldSet, List.foldl_cons]
        rw [jsRecordSet_map_not_mem f ks n hn]
      have hnodup : (ks ++ [n]).Nodup := by
        simp [List.nodup_append, hks, hn]
      rw [hstep, ih (ks ++ [n]) hnodup]
      have hfilter :
          rest.filter (fun x => decide (x ∉ ks ++ [n])) =
            (rest.filter (fun x => decide (x ∉ ks))).filter
              (fun x => decide (x ≠ n)) := by
        rw [List.filter_filter]
        apply List.filter_congr
        intro a _
        by_cases h1 : a ∈ ks <;> by_cases h2 : a = n <;>
          simp [h1, h2]
      have hded :
          dedupFirst ((n :: rest).filter (fun x => decide (x ∉ ks))) =
            n :: dedupFirst (rest.filter (fun x => decide (x ∉ ks ++ [n]))) := by
        have hcons :
            (n :: rest).filter (fun x => decide (x ∉ ks)) =
              n :: rest.filter (fun x => decide (x ∉ ks)) := by
          simp [List.filter_cons, hn]
        rw [hcons]
        rw [show dedupFirst (n :: rest.filter (fun x => decide (x ∉ ks))) =
              n :: dedupFirst ((rest.filter (fun x => decide (x ∉ ks))).filter
                (fun x => decide (x ≠ n))) from by
          conv_lhs => rw [dedupFirst]]
        rw [hfilter]
      rw [hded]
      simp [List.append_assoc]

/-- Specialization to the empty starting record. -/
theorem foldSet_nil_eq (f : String → α) (names : List String) :
    foldSet f [] names =
      (dedupFirst names).map (fun x => (x, f x)) := by
  have h := foldSet_map_eq f names [] List.nodup_nil
  simpa using h

end RecordLemmas

/-! ## Lemmas: first-occurrence deduplication -/

theorem dedupFirst_nodup_mem (l : List String) :
    (dedupFirst l).Nodup ∧ ∀ a, a ∈ dedupFirst l ↔ a ∈ l := by
  suffices H : ∀ (N : ℕ) (l : List String), l.length ≤ N →
      (dedupFirst l).Nodup ∧ ∀ a, a ∈ dedupFirst l ↔ a ∈ l from
    H l.length l le_rfl
  intro N
  induction N with
  | zero =>
    intro l hl
    have h0 : l = [] := List.eq_nil_of_length_eq_zero (Nat.le_zero.mp hl)
    subst h0
    simp [dedupFirst]
  | succ N ih =>
    intro l hl
    cases l with
    | nil => simp [dedupFirst]
    | cons n rest =>
      rw [dedupFirst]
      have hlen : (rest.filter (fun x => decide (x ≠ n))).length ≤ N := by
        have h1 := List.length_filter_le (fun x => decide (x ≠ n)) rest
        simp only [List.length_cons] at hl
        omega
      obtain ⟨hnd, hmem⟩ := ih _ hlen
      constructor
      · refine List.Nodup.cons ?_ hnd
        intro hc
        have := (hmem n).1 hc
        simp at this
      · intro a
        by_cases h : a = n
        · subst h
          simp
        · simp only [List.mem_cons, hmem, List.mem_filter, h, false_or]
          simp [h]

theorem dedupFirst_nodup (l : List String) : (dedupFirst l).Nodup :=
  (dedupFirst_nodup_mem l).1

theorem mem_dedupFirst (l : List String) (a : String) :
    a ∈ dedupFirst l ↔ a ∈ l :=
  (dedupFirst_nodup_mem l).2 a

theorem dedupFirst_of_nodup (l : List String) (hl : l.Nodup) :
    dedupFirst l = l := by
  induction l with
  | nil => simp [dedupFirst]
  | cons n rest ih =>
    rw [dedupFirst]
    have hn : n ∉ rest := (List.nodup_cons.mp hl).1
    have hrest : rest.Nodup := (List.nodup_cons.mp hl).2
    have hfe : rest.filter (fun x => decide (x ≠ n)) = rest := by
      apply List.filter_eq_self.mpr
      intro a ha
      simp only [decide_eq_true_eq]
      intro h
      exact hn (h ▸ ha)
    rw [hfe, ih hrest]

theorem dedupFirst_idem (l : List String) :
    dedupFirst (dedupFirst l) = dedupFirst l :=
  dedupFirst_of_nodup _ (dedupFirst_nodup l)

/-! ## Lemmas: the part_010 batch orchestrator -/

theorem batchNutritionRun_eq (usda off : ProviderOracle) (authed : Bool)
    (names : List String) :
    NutritionActions.batchNutritionRun usda off authed names =
      (foldSet (NutritionActions.resolveBatchEntry usda off authed) [] names,
       names.length) := by
  suffices H : ∀ (ns : List String) (m : List (String × FoodItemDetail)) (c : ℕ),
      ns.foldl
        (fun acc n =>
          (jsRecordSet acc.1 n (NutritionActions.resolveBatchEntry usda off authed n),
           acc.2 + 1))
        (m, c) =
      (foldSet (NutritionActions.resolveBatchEntry usda off authed) m ns,
       c + ns.length) by
    have h := H names [] 0
    simpa [NutritionActions.batchNutritionRun] using h
  intro ns
  induction ns with
  | nil =>
    intro m c
    simp [foldSet]
  | cons n rest ih =>
    intro m c
    simp only [List.foldl_cons]
    rw [ih]
    have hfold :
        foldSet (NutritionActions.resolveBatchEntry usda off authed) m (n :: rest) =
          foldSet (NutritionActions.resolveBatchEntry usda off authed)
            (jsRecordSet m n
              (NutritionActions.resolveBatchEntry usda off authed n)) rest := rfl
    rw [hfold]
    have harith : c + 1 + rest.length = c + (n :: rest).length := by
      simp only [List.length_cons]
      omega
    rw [harith]

theorem batchRun_keys (usda off : ProviderOracle) (authed : Bool)
    (names : List String) :
    keysOf (NutritionActions.batchNutritionRun usda off authed names).1 =
      dedupFirst names := by
  rw [batchNutritionRun_eq]
  dsimp only
  rw [foldSet_nil_eq]
  unfold keysOf
  rw [List.map_map]
  conv_rhs => rw [← List.map_id (dedupFirst names)]
  apply List.map_congr_left
  intro a _
  rfl

/-- C1 (amended): for every non-empty name list under an authenticated
session, the part_010 `batchNutritionLookupAction` succeeds — for every
provider behaviour, including both providers failing on every name —
and its mapping has exactly one entry per unique input name (keys are
the input names, first occurrences, without duplicates). -/
theorem claim1_batch_one_entry_per_unique_name (usda off : ProviderOracle)
    (names : List String) (hne : names ≠ []) :
    ∃ msg m,
      NutritionActions.batchNutritionLookupAction usda off true names =
        ActionState.success msg m ∧
      keysOf m = dedupFirst names ∧
      (keysOf m).Nodup ∧
      (∀ n, n ∈ keysOf m ↔ n ∈ names) := by
  have hempty : names.isEmpty = false := by
    cases names with
    | nil => exact absurd rfl hne
    | cons a l => rfl
  refine ⟨"Processed nutrition for " ++ toString names.length ++ " food items",
    (NutritionActions.batchNutritionRun usda off true names).1,
    ?_, ?_, ?_, ?_⟩
  · simp [NutritionActions.batchNutritionLookupAction, hempty]
  · exact batchRun_keys usda off true names
  · rw [batchRun_keys]
    exact dedupFirst_nodup names
  · intro n
    rw [batchRun_keys]
    exact mem_dedupFirst names n

/-- C1 counterexample: the part_013 `batchNutritionLookupAction`, run on
`["Apple"]` with both providers failing, succeeds with an **empty**
mapping — no entry at all for the unique input name. -/
theorem claim1_counterexample :
    NutritionActionsB.batchNutritionLookupAction
        (fun _ => Except.error ()) (fun _ => Except.error ()) ["Apple"] =
      ActionState.success "Batch nutrition lookup completed" [] := by
  with_unfolding_all rfl

/-- Witness for C1 at a concrete input. -/
theorem claim1_witness :
    ∃ msg m,
      NutritionActions.batchNutritionLookupAction
          (fun _ => Except.error ()) (fun _ => Except.error ()) true
          ["Apple", "Banana"] =
        ActionState.success msg m ∧
      keysOf m = dedupFirst ["Apple", "Banana"] ∧
      (keysOf m).Nodup ∧
      (∀ n, n ∈ keysOf m ↔ n ∈ ["Apple", "Banana"]) :=
  claim1_batch_one_entry_per_unique_name
    (fun _ => Except.error ()) (fun _ => Except.error ())
    ["Apple", "Banana"] (by simp)

/-- C7 (amended): the part_010 batch lookup performs one resolver
invocation per **occurrence** (`foodNames.length` of them, not one per
distinct name), yet its mapping equals the mapping for the deduplicated
list, keyed by the original (case-preserved) names with duplicates
collapsed. -/
theorem claim7_batch_resolves_per_occurrence (usda off : ProviderOracle)
    (names : List String) :
    (NutritionActions.batchNutritionRun usda off true names).2 = names.length ∧
    (NutritionActions.batchNutritionRun usda off true names).1 =
      (NutritionActions.batchNutritionRun usda off true (dedupFirst names)).1 ∧
    keysOf (NutritionActions.batchNutritionRun usda off true names).1 =
      dedupFirst names := by
  refine ⟨?_, ?_, batchRun_keys usda off true names⟩
  · rw [batchNutritionRun_eq]
  · rw [batchNutritionRun_eq, batchNutritionRun_eq]
    dsimp only
    rw [foldSet_nil_eq, foldSet_nil_eq, dedupFirst_idem]

/-- C7 counterexample: on `["Apple", "Apple"]` the batch performs two
resolver invocations although there is one distinct name — the claimed
"single resolver invocation per distinct name" fails. -/
theorem claim7_counterexample :
    (NutritionActions.batchNutritionRun
        (fun _ => Except.ok []) (fun _ => Except.ok []) true
        ["Apple", "Apple"]).2 = 2 ∧
    dedupFirst ["Apple", "Apple"] = ["Apple"] := by
  constructor
  · with_unfolding_all rfl
  · simp [dedupFirst]

/-- C4: when both provider searches contribute zero usable items, the
part_010 resolver succeeds with exactly the fallback record: the input
name, source `"default"`, the all-zero nutrition record, and confidence
0.  (Authentication and the blank-name guard precede the resolver; the
spec discards empty names before resolution and treats authentication
as an external collaborator.) -/
theorem claim4_fallback_record (usda off : ProviderOracle) (name : String)
    (hname : trimStr name ≠ "")
    (hu : searchUSDAFoods usda name = [])
    (ho : searchOpenFoodFacts off name = []) :
    NutritionActions.getNutritionInfoAction usda off true name =
      ActionState.success "Using estimated nutrition (no exact match found)"
        [getFallbackNutrition name] ∧
    getFallbackNutrition name =
      { name := name
        description := some ("Estimated nutrition for " ++ name)
        nutrition := { calories := 0, protein := 0, carbs := 0, fat := 0 }
        source := "default"
        confidence := some 0 } := by
  constructor
  · simp [NutritionActions.getNutritionInfoAction, hname, searchFoodNutrition,
      hu, ho]
  · rfl

/-- Witness for C4 at a concrete input. -/
theorem claim4_witness :
    NutritionActions.getNutritionInfoAction
        (fun _ => Except.ok []) (fun _ => Except.error ()) true "Gala Apple" =
      ActionState.success "Using estimated nutrition (no exact match found)"
        [getFallbackNutrition "Gala Apple"] ∧
    getFallbackNutrition "Gala Apple" =
      { name := "Gala Apple"
        description := some ("Estimated nutrition for " ++ "Gala Apple")
        nutrition := { calories := 0, protein := 0, carbs := 0, fat := 0 }
        source := "default"
        confidence := some 0 } :=
  claim4_fallback_record (fun _ => Except.ok []) (fun _ => Except.error ())
    "Gala Apple" (by decide) rfl rfl

/-! ## Lemmas: the layered vision-response parser -/

/-- When both parse layers fail, `processVisionContent` normalizes the
built-in default and yields the empty-but-valid result. -/
theorem processVisionContent_parse_failure (content : String)
    (h : OpenAIVision.parsedVisionJson content = none) :
    OpenAIVision.processVisionContent content =
      Except.ok { foodItems := [], extractedText := JSVal.arr [] } := by
  unfold OpenAIVision.processVisionContent
  rw [h]
  rfl

/-- Every item produced by `ensureFoodItem` has its confidence clamped
into `[0, 1]`. -/
theorem ensureFoodItem_confidence_bounds (x : JSVal)
    (it : OpenAIVision.FoodItem) (h : OpenAIVision.ensureFoodItem x = .ok it) :
    0 ≤ it.confidence ∧ it.confidence ≤ 1 := by
  unfold OpenAIVision.ensureFoodItem at h
  cases hn : jsGetE x "name" with
  | error e =>
    rw [hn] at h
    simp [Bind.bind, Except.bind] at h
  | ok n =>
    cases hc : jsGetE x "confidence" with
    | error e =>
      rw [hn, hc] at h
      simp [Bind.bind, Except.bind] at h
    | ok c =>
      rw [hn, hc] at h
      simp only [Bind.bind, Except.bind, Except.ok.injEq] at h
      subst h
      cases c with
      | num q =>
        constructor
        · exact le_min (le_max_right q 0) zero_le_one
        · exact min_le_right _ 1
      | null => exact ⟨le_refl 0, zero_le_one⟩
      | undefined => exact ⟨le_refl 0, zero_le_one⟩
      | bool b => exact ⟨le_refl 0, zero_le_one⟩
      | str s => exact ⟨le_refl 0, zero_le_one⟩
      | arr xs => exact ⟨le_refl 0, zero_le_one⟩
      | obj fs => exact ⟨le_refl 0, zero_le_one⟩

/-- Every member of a successful `mapEnsure` run comes from
`ensureFoodItem`. -/
theorem mapEnsure_mem (xs : List JSVal) (ys : List OpenAIVision.FoodItem)
    (h : OpenAIVision.mapEnsure xs = .ok ys) (it : OpenAIVision.FoodItem)
    (hit : it ∈ ys) : ∃ x, OpenAIVision.ensureFoodItem x = .ok it := by
  induction xs generalizing ys with
  | nil =>
    unfold OpenAIVision.mapEnsure at h
    simp only [Except.ok.injEq] at h
    subst h
    cases hit
  | cons x xs ih =>
    unfold OpenAIVision.mapEnsure at h
    cases h1 : OpenAIVision.ensureFoodItem x with
    | error e =>
      rw [h1] at h
      simp [Bind.bind, Except.bind] at h
    | ok y =>
      rw [h1] at h
      cases h2 : OpenAIVision.mapEnsure xs with
      | error e =>
        rw [h2] at h
        simp [Bind.bind, Except.bind] at h
      | ok ys' =>
        rw [h2] at h
        simp only [Bind.bind, Except.bind, Except.ok.injEq] at h
        subst h
        cases hit with
        | head => exact ⟨x, h1⟩
        | tail _ hmem => exact ih ys' h2 hmem

/-- Normalization invariant: every surviving item has a non-blank name
and a clamped confidence. -/
theorem normalizeParsed_items (p : JSVal) (r : OpenAIVision.ImageProcessingResult)
    (h : OpenAIVision.normalizeParsedResponse p = .ok r) :
    ∀ it ∈ r.foodItems,
      trimStr it.name ≠ "" ∧ 0 ≤ it.confidence ∧ it.confidence ≤ 1 := by
  unfold OpenAIVision.normalizeParsedResponse at h
  cases h1 : OpenAIVision.ensureArrayField p "foodItems" with
  | error e =>
    rw [h1] at h
    simp [Bind.bind, Except.bind] at h
  | ok fi =>
    rw [h1] at h
    cases h2 : OpenAIVision.ensureArrayField p "extractedText" with
    | error e =>
      rw [h2] at h
      simp [Bind.bind, Except.bind] at h
    | ok et =>
      rw [h2] at h
      simp only [Bind.bind, Except.bind] at h
      cases fi with
      | arr xs =>
        dsimp only at h
        cases h3 : OpenAIVision.mapEnsure xs with
        | error e =>
          rw [h3] at h
          simp [Bind.bind, Except.bind] at h
        | ok items =>
          rw [h3] at h
          simp only [Bind.bind, Except.bind, Except.ok.injEq] at h
          subst h
          intro it hit
          simp only [List.mem_filter, decide_eq_true_eq] at hit
          obtain ⟨hmem, hname⟩ := hit
          obtain ⟨x, hx⟩ := mapEnsure_mem xs items h3 it hmem
          exact ⟨hname, ensureFoodItem_confidence_bounds x it hx⟩
      | null => simp at h
      | undefined => simp at h
      | bool b => simp at h
      | num q => simp at h
      | str s => simp at h
      | obj fs => simp at h

/-- C2 (amended): on every raw model text where both the direct
`JSON.parse` and the extract-and-re-parse layer fail, the
`openai-vision.ts` parser returns the valid empty result
`{foodItems: [], extractedText: []}` instead of propagating the parse
error. -/
theorem claim2_parser_empty_fallback (content : String)
    (h : OpenAIVision.parsedVisionJson content = none) :
    OpenAIVision.processVisionContent content =
      Except.ok { foodItems := [], extractedText := JSVal.arr [] } :=
  processVisionContent_parse_failure content h

/-- C2 counterexample: the part_015 parser variant turns the same total
parse failure into a surfaced failed action instead of the empty
result. -/
theorem claim2_counterexample :
    OpenAIVisionB.processImageWithOpenAI (Except.ok (some "no json here")) =
      ActionState.failure
        "Failed to process image: Failed to parse response from OpenAI" := by
  rfl

/-- Witness for C2 at a concrete input. -/
theorem claim2_witness :
    OpenAIVision.parsedVisionJson "no json here" = none ∧
    OpenAIVision.processVisionContent "no json here" =
      Except.ok { foodItems := [], extractedText := JSVal.arr [] } :=
  ⟨rfl, claim2_parser_empty_fallback "no json here" rfl⟩

/-- C3 (amended): every item in the parser's normalized food list has a
name that is non-empty after trimming (the name itself is **not**
trimmed) and a numeric confidence clamped into `[0, 1]` (missing or
non-numeric confidence becomes 0). -/
theorem claim3_normalized_items (content : String)
    (r : OpenAIVision.ImageProcessingResult)
    (h : OpenAIVision.processVisionContent content = .ok r) :
    ∀ it ∈ r.foodItems,
      trimStr it.name ≠ "" ∧ 0 ≤ it.confidence ∧ it.confidence ≤ 1 :=
  normalizeParsed_items _ r h

/-- C3 counterexample: a well-formed response whose item name carries
surrounding spaces survives **untrimmed** — the output name is not a
trimmed string, refuting the "coerce `name` to a trimmed string"
reading. -/
theorem claim3_counterexample :
    OpenAIVision.processVisionContent
        "\x7b\"foodItems\":[\x7b\"name\":\" Apple \",\"confidence\":0.5\x7d],\"extractedText\":[]\x7d" =
      Except.ok
        { foodItems := [{ name := " Apple ", confidence := 1 / 2 }]
          extractedText := JSVal.arr [] } ∧
    trimStr " Apple " ≠ " Apple " := by
  constructor
  · with_unfolding_all rfl
  · decide

/-- Witness for C3 at a concrete input (an out-of-range confidence 2 is
clamped to 1). -/
theorem claim3_witness :
    trimStr "Apple" ≠ "" ∧ (0 : ℚ) ≤ 1 ∧ (1 : ℚ) ≤ 1 := by
  have h :=
    claim3_normalized_items
      "\x7b\"foodItems\":[\x7b\"name\":\"Apple\",\"confidence\":2\x7d],\"extractedText\":[]\x7d"
      { foodItems := [{ name := "Apple", confidence := 1 }]
        extractedText := JSVal.arr [] }
      (by with_unfolding_all rfl)
  exact h { name := "Apple", confidence := 1 } (List.mem_singleton.mpr rfl)

/-- C6 (amended): the entry point surfaces the vision-call failure, and
surfaces `NO_FOOD_DETECTED` when the model call completes but the
response text defeats both parse layers (the absorbed parse failure
degrades to the empty candidate list); but contrary to the claim these
are not the only terminal failures — see the counterexample. -/
theorem claim6_terminal_outcomes (imageData : String) (him : imageData ≠ "") :
    (∀ e : Unit,
      FoodDetection.detectFoodInImageAction (Except.error e) imageData =
        ActionState.failure "Failed to process image: [api error]") ∧
    (∀ content : String, content ≠ "" →
      OpenAIVision.parsedVisionJson content = none →
      FoodDetection.detectFoodInImageAction (Except.ok (some content)) imageData =
        ActionState.failure FoodDetection.NO_FOOD_DETECTED) := by
  constructor
  · intro e
    simp [FoodDetection.detectFoodInImageAction, him,
      OpenAIVision.processImageWithOpenAI]
  · intro content hc h
    have hp := processVisionContent_parse_failure content h
    simp [FoodDetection.detectFoodInImageAction, him,
      OpenAIVision.processImageWithOpenAI, hc, hp]

/-- C6 counterexample: a completed vision call whose JSON parses but
carries a non-array `foodItems` is surfaced as a **third** failure —
distinct from the no-food outcome and the vision-call failure — so the
parse layer's failures are not all absorbed. -/
theorem claim6_counterexample :
    FoodDetection.detectFoodInImageAction
        (Except.ok (some "\x7b\"foodItems\": 5, \"extractedText\": []\x7d")) "img" =
      ActionState.failure "Failed to process image: [normalization error]" ∧
    "Failed to process image: [normalization error]" ≠
      FoodDetection.NO_FOOD_DETECTED ∧
    "Failed to process image: [normalization error]" ≠
      "Failed to process image: [api error]" := by
  refine ⟨by rfl, by decide, by decide⟩

/-- Witness for C6 at concrete inputs. -/
theorem claim6_witness :
    FoodDetection.detectFoodInImageAction (Except.error ()) "img" =
      ActionState.failure "Failed to process image: [api error]" ∧
    FoodDetection.detectFoodInImageAction (Except.ok (some "no json here")) "img" =
      ActionState.failure FoodDetection.NO_FOOD_DETECTED := by
  have h := claim6_terminal_outcomes "img" (by decide)
  exact ⟨h.1 (), h.2 "no json here" (by decide) rfl⟩

/-! ## Lemmas: final assembly -/

/-- Per-item nutrition fetch never changes the item's name. -/
theorem fetchNutrition_preserves_name
    (getNutrition : String → ActionState (List FoodItemDetail))
    (item : MealLogForm.FoodItem) :
    (MealLogForm.fetchNutritionForFoodItem getNutrition item).name = item.name := by
  unfold MealLogForm.fetchNutritionForFoodItem
  split
  · rfl
  · split <;> rfl

/-- C5: final assembly returns exactly one row per detected candidate,
in detection order, with each row tracing back (by name) to its
candidate — a failed or missing nutrition resolution degrades the row
instead of dropping it.  This holds for **every** behaviour of the
batch and per-item lookup oracles (so in particular it is independent
of the completion order of the underlying concurrent lookups, whose
fan-in is the order-preserving `items.map` / `Promise.all`). -/
theorem claim5_assembly_preserves_candidates
    (batchLookup : List String → ActionState (List (String × FoodItemDetail)))
    (getNutrition : String → ActionState (List FoodItemDetail))
    (items : List MealLogForm.FoodItem) :
    (MealLogForm.processFoodItemsWithNutrition batchLookup getNutrition
        items).length = items.length ∧
    (MealLogForm.processFoodItemsWithNutrition batchLookup getNutrition
        items).map (fun i => i.name) = items.map (fun i => i.name) := by
  unfold MealLogForm.processFoodItemsWithNutrition
  split
  · constructor
    · rw [List.length_map]
    · rw [List.map_map]
      apply List.map_congr_left
      intro item _
      simp only [Function.comp_apply]
      split <;> rfl
  · constructor
    · rw [List.length_map]
    · rw [List.map_map]
      apply List.map_congr_left
      intro item _
      simp only [Function.comp_apply]
      exact fetchNutrition_preserves_name getNutrition item

/-- C9 (amended): whenever a candidate carries a **non-zero** AI
confidence, the assembled row keeps exactly that confidence, for every
resolver behaviour; a present-but-zero AI confidence is instead
replaced through the `||` chain (see the counterexample). -/
theorem claim9_ai_confidence_preferred
    (getNutrition : String → ActionState (List FoodItemDetail))
    (item : MealLogForm.FoodItem) (q : ℚ)
    (hq : item.confidence = some q) (hnz : q ≠ 0) :
    (MealLogForm.fetchNutritionForFoodItem getNutrition item).confidence =
      some q := by
  unfold MealLogForm.fetchNutritionForFoodItem
  split
  · exact hq
  · split
    · dsimp only
      rw [hq]
      simp [MealLogForm.truthyOptNum, hnz]
    · exact hq

/-- C9 counterexample: a candidate with AI confidence **present and
equal to 0** ends up with the provider's confidence 9/10 instead of its
own AI confidence. -/
theorem claim9_counterexample :
    (MealLogForm.fetchNutritionForFoodItem
        (fun _ => ActionState.success "ok"
          [{ name := "Apple"
             nutrition := { calories := 52, protein := 0, carbs := 14, fat := 0 }
             source := "USDA"
             confidence := some (9 / 10) }])
        { name := "Apple", calories := 0, protein := 0, carbs := 0, fat := 0
          confidence := some 0 }).confidence = some (9 / 10) ∧
    some ((9 : ℚ) / 10) ≠ some (0 : ℚ) := by
  constructor
  · with_unfolding_all rfl
  · with_unfolding_all decide

/-- Witness for C9 at a concrete input. -/
theorem claim9_witness :
    (MealLogForm.fetchNutritionForFoodItem (fun _ => ActionState.failure "down")
        { name := "Tea", calories := 0, protein := 0, carbs := 0, fat := 0
          confidence := some (1 / 2) }).confidence = some (1 / 2) :=
  claim9_ai_confidence_preferred (fun _ => ActionState.failure "down")
    { name := "Tea", calories := 0, protein := 0, carbs := 0, fat := 0
      confidence := some (1 / 2) }
    (1 / 2) rfl (by norm_num)

/-! ## Lemmas: trace log queries -/

/-- Two trace-1 entries appended out of timestamp order, and one entry
of another trace, exercising the trace query. -/
def demoLogLate : ServerLogger.LogEntry :=
  { timestamp := "2025-01-01T00:00:02Z", traceId := "trace-1"
    step := ServerLogger.FoodIdentificationStep.imageUpload
    message := "appended first, stamped later" }

def demoLogEarly : ServerLogger.LogEntry :=
  { timestamp := "2025-01-01T00:00:01Z", traceId := "trace-1"
    step := ServerLogger.FoodIdentificationStep.openaiVisionRequest
    message := "appended second, stamped earlier" }

def demoLogOther : ServerLogger.LogEntry :=
  { timestamp := "2025-01-01T00:00:03Z", traceId := "trace-2"
    step := ServerLogger.FoodIdentificationStep.finalFoodItem
    message := "another trace" }

/-- C8 (amended): `getLogsByTraceId` returns exactly the events whose
`traceId` equals the argument, in store (append) order — it applies no
sort, so the result is timestamp-ascending only when the store already
is. -/
theorem claim8_trace_query_filters (logs : List ServerLogger.LogEntry)
    (t : String) :
    (∀ e, e ∈ ServerLogger.getLogsByTraceId logs t ↔
      (e ∈ logs ∧ e.traceId = t)) ∧
    (ServerLogger.getLogsByTraceId logs t).Sublist logs ∧
    (ServerLogger.chronological logs →
      ServerLogger.chronological (ServerLogger.getLogsByTraceId logs t)) := by
  refine ⟨?_, ?_, ?_⟩
  · intro e
    simp [ServerLogger.getLogsByTraceId, List.mem_filter]
  · exact List.filter_sublist _
  · intro h
    exact List.Pairwise.sublist (List.filter_sublist _) h

/-- C8 counterexample: with the store holding two trace-1 events whose
append order disagrees with their timestamps, the query returns them in
append order, which is **not** timestamp-ascending. -/
theorem claim8_counterexample :
    ServerLogger.getLogsByTraceId [demoLogLate, demoLogEarly, demoLogOther]
        "trace-1" = [demoLogLate, demoLogEarly] ∧
    ¬ ServerLogger.chronological [demoLogLate, demoLogEarly] := by
  constructor
  · rfl
  · decide

/-- Witness for C8 at a concrete input. -/
theorem claim8_witness :
    ServerLogger.chronological
      (ServerLogger.getLogsByTraceId [demoLogEarly, demoLogLate, demoLogOther]
        "trace-1") := by
  have h :=
    claim8_trace_query_filters [demoLogEarly, demoLogLate, demoLogOther] "trace-1"
  exact h.2.2 (by decide)

/-! ## Lemmas: provider adapter transforms -/

/-- Reading a property of any non-nullish value never throws. -/
theorem jsGetE_ok (v : JSVal) (k : String) (h1 : v ≠ JSVal.null)
    (h2 : v ≠ JSVal.undefined) : ∃ w, jsGetE v k = .ok w := by
  cases v with
  | null => exact absurd rfl h1
  | undefined => exact absurd rfl h2
  | obj fs =>
    unfold jsGetE
    dsimp only
    cases hf : fs.find? (fun p => p.1 = k) with
    | some p => exact ⟨p.2, rfl⟩
    | none => exact ⟨.undefined, rfl⟩
  | bool b => exact ⟨.undefined, rfl⟩
  | num q => exact ⟨.undefined, rfl⟩
  | str s => exact ⟨.undefined, rfl⟩
  | arr xs => exact ⟨.undefined, rfl⟩

/-- The USDA catch block succeeds on every non-nullish payload, with
the fixed fallback shape. -/
theorem transformUSDAFoodCatch_ok (food : JSVal) (h1 : food ≠ JSVal.null)
    (h2 : food ≠ JSVal.undefined) :
    ∃ r, NutritionTransforms.transformUSDAFoodCatch food = .ok r ∧
      r.source = "USDA" ∧
      r.nutrition = NutritionTransforms.DYN_DEFAULT_NUTRITION ∧
      r.confidence = 1 / 2 := by
  obtain ⟨d, hd⟩ := jsGetE_ok food "description" h1 h2
  obtain ⟨f, hf⟩ := jsGetE_ok food "fdcId" h1 h2
  refine ⟨{ name := jsOr d (JSVal.str "Unknown Food")
            nutrition := NutritionTransforms.DYN_DEFAULT_NUTRITION
            source := "USDA"
            sourceId := NutritionTransforms.optToString f
            confidence := 1 / 2 }, ?_, rfl, rfl, rfl⟩
  unfold NutritionTransforms.transformUSDAFoodCatch
  rw [hd, hf]
  rfl

/-- The OpenFoodFacts catch block succeeds on every non-nullish
payload, with the fixed fallback shape. -/
theorem transformOFFCatch_ok (product : JSVal) (h1 : product ≠ JSVal.null)
    (h2 : product ≠ JSVal.undefined) :
    ∃ r, NutritionTransforms.transformOpenFoodFactsProductCatch product = .ok r ∧
      r.source = "OpenFoodFacts" ∧
      r.nutrition = NutritionTransforms.DYN_DEFAULT_NUTRITION ∧
      r.confidence = 1 / 2 := by
  obtain ⟨pn, hpn⟩ := jsGetE_ok product "product_name" h1 h2
  obtain ⟨co, hco⟩ := jsGetE_ok product "code" h1 h2
  obtain ⟨pi, hpi⟩ := jsGetE_ok product "_id" h1 h2
  refine ⟨{ name := jsOr pn (JSVal.str "Unknown Product")
            nutrition := NutritionTransforms.DYN_DEFAULT_NUTRITION
            source := "OpenFoodFacts"
            sourceId := jsOr co pi
            confidence := 1 / 2 }, ?_, rfl, rfl, rfl⟩
  unfold NutritionTransforms.transformOpenFoodFactsProductCatch
  rw [hpn, hco, hpi]
  rfl

/-- C10 (amended): for every payload that is not `null`/`undefined`,
both transforms are total, and whenever the `try` body throws, the
returned record is still tagged with the provider source (never
`"default"`), carries the all-zero nutrition record and has confidence
0.5.  A `null` payload, however, makes both transforms throw — see the
counterexample. -/
theorem claim10_transforms_total_on_objects (food product : JSVal)
    (hf1 : food ≠ JSVal.null) (hf2 : food ≠ JSVal.undefined)
    (hp1 : product ≠ JSVal.null) (hp2 : product ≠ JSVal.undefined) :
    ((∃ r, NutritionTransforms.transformUSDAFood food = .ok r) ∧
      (NutritionTransforms.transformUSDAFoodTry food = .error () →
        ∃ r, NutritionTransforms.transformUSDAFood food = .ok r ∧
          r.source = "USDA" ∧ r.source ≠ "default" ∧
          r.nutrition = NutritionTransforms.DYN_DEFAULT_NUTRITION ∧
          r.confidence = 1 / 2)) ∧
    ((∃ r, NutritionTransforms.transformOpenFoodFactsProduct product = .ok r) ∧
      (NutritionTransforms.transformOpenFoodFactsProductTry product = .error () →
        ∃ r, NutritionTransforms.transformOpenFoodFactsProduct product = .ok r ∧
          r.source = "OpenFoodFacts" ∧ r.source ≠ "default" ∧
          r.nutrition = NutritionTransforms.DYN_DEFAULT_NUTRITION ∧
          r.confidence = 1 / 2)) := by
  constructor
  · cases ht : NutritionTransforms.transformUSDAFoodTry food with
    | ok r =>
      constructor
      · refine ⟨r, ?_⟩
        unfold NutritionTransforms.transformUSDAFood
        rw [ht]
      · intro he
        exact Except.noConfusion he
    | error e =>
      obtain ⟨r, hr, hsrc, hnut, hconf⟩ := transformUSDAFoodCatch_ok food hf1 hf2
      have hmain : NutritionTransforms.transformUSDAFood food = .ok r := by
        unfold NutritionTransforms.transformUSDAFood
        rw [ht]
        exact hr
      refine ⟨⟨r, hmain⟩, fun _ => ⟨r, hmain, hsrc, ?_, hnut, hconf⟩⟩
      rw [hsrc]
      decide
  · cases ht : NutritionTransforms.transformOpenFoodFactsProductTry product with
    | ok r =>
      constructor
      · refine ⟨r, ?_⟩
        unfold NutritionTransforms.transformOpenFoodFactsProduct
        rw [ht]
      · intro he
        exact Except.noConfusion he
    | error e =>
      obtain ⟨r, hr, hsrc, hnut, hconf⟩ := transformOFFCatch_ok product hp1 hp2
      have hmain :
          NutritionTransforms.transformOpenFoodFactsProduct product = .ok r := by
        unfold NutritionTransforms.transformOpenFoodFactsProduct
        rw [ht]
        exact hr
      refine ⟨⟨r, hmain⟩, fun _ => ⟨r, hmain, hsrc, ?_, hnut, hconf⟩⟩
      rw [hsrc]
      decide

/-- C10 counterexample: on a `null` payload (a legal JSON element of a
provider's result array) **both** transforms throw — the `catch` block
itself dereferences the payload — so the transforms are not total. -/
theorem claim10_counterexample :
    NutritionTransforms.transformUSDAFood JSVal.null = .error () ∧
    NutritionTransforms.transformOpenFoodFactsProduct JSVal.null = .error () :=
  ⟨rfl, rfl⟩

/-- Witness for C10: an object payload whose `foodNutrients` is a
non-iterable number (USDA) and one whose `serving_size` is a number
(OpenFoodFacts) both take the catch path and produce the tagged
zero-nutrition record. -/
theorem claim10_witness :
    (∃ r, NutritionTransforms.transformUSDAFood
        (JSVal.obj [("foodNutrients", JSVal.num 5)]) = .ok r ∧
      r.source = "USDA" ∧ r.source ≠ "default" ∧
      r.nutrition = NutritionTransforms.DYN_DEFAULT_NUTRITION ∧
      r.confidence = 1 / 2) ∧
    (∃ r, NutritionTransforms.transformOpenFoodFactsProduct
        (JSVal.obj [("serving_size", JSVal.num 100)]) = .ok r ∧
      r.source = "OpenFoodFacts" ∧ r.source ≠ "default" ∧
      r.nutrition = NutritionTransforms.DYN_DEFAULT_NUTRITION ∧
      r.confidence = 1 / 2) := by
  have h :=
    claim10_transforms_total_on_objects
      (JSVal.obj [("foodNutrients", JSVal.num 5)])
      (JSVal.obj [("serving_size", JSVal.num 100)])
      (fun h => nomatch h) (fun h => nomatch h)
      (fun h => nomatch h) (fun h => nomatch h)
  exact ⟨h.1.2 rfl, h.2.2 rfl⟩

end FoodPipeline
